import Mathlib

/-!
Verification development for the `simpleprint` receipt-printer service.

The Go source under scrutiny consists of:
  * a JSON decoder (`PrintRequest.UnmarshalJSON` and the per-item
    unmarshalers in `handlers.go`) turning a JSON job into a list of
    receipt commands,
  * enum string types (`FontType`, `AlignmentType`, `BarcodeType`,
    `DitherMode`) with custom unmarshalers for all but `FontType`,
  * translation helpers to the `escpos` device library
    (`ToEscposFont`, `ToEscposAlignment`, `ToEscposBarcodeType`),
  * the execution engine `handlePrint`, which walks the decoded
    sequence and issues device operations, ending with a paper cut.

JSON documents are embedded as the inductive `JVal` (numbers as `ℚ`,
mirroring Go's float64 view of JSON numbers at the value level; object
key matching is by exact name, the Go decoder's case-insensitive
fallback is outside every property treated here).  Decoding is modelled
field-by-field from the Go unmarshalers: an absent field keeps the Go
zero value, a `null` leaves the previous value for plain string/int
fields but is passed to custom unmarshalers, and type mismatches are
errors, exactly as `encoding/json` behaves on the source's structs.
Re-serialization is Go's default `json.Marshal` on the decoded values.
-/

/-- A JSON value.  Numbers carry a rational, matching the numeric value
of the literal; Go's `encoding/json` hands them to `interface{}` fields
as float64 and to `int` fields only when integral. -/
inductive JVal where
  | null : JVal
  | bool (b : Bool) : JVal
  | num (q : ℚ) : JVal
  | str (s : String) : JVal
  | arr (xs : List JVal) : JVal
  | obj (fields : List (String × JVal)) : JVal
deriving Repr

/-- Lookup of a key in a JSON object.  `encoding/json` processes keys in
order, each occurrence overwriting the previous, so the last occurrence
wins. -/
def jlookup (fields : List (String × JVal)) (key : String) : Option JVal :=
  match fields with
  | [] => none
  | (k, v) :: rest =>
    match jlookup rest key with
    | some w => some w
    | none => if k = key then some v else none

/-- `strconv.ParseInt(s, 10, 64)` as called by `json.Number.Int64`:
an optional sign followed by at least one ASCII digit, value within the
int64 range. -/
def parseGoInt64 (s : String) : Option Int :=
  let withSign : Int × List Char :=
    match s.toList with
    | '+' :: r => (1, r)
    | '-' :: r => (-1, r)
    | r => (1, r)
  let sign := withSign.1
  let digits := withSign.2
  if digits = [] then none
  else if digits.all Char.isDigit then
    let n : Nat := digits.foldl (fun acc c => acc * 10 + (c.toNat - '0'.toNat)) 0
    let v : Int := sign * (n : Int)
    if -(2 ^ 63) ≤ v ∧ v ≤ 2 ^ 63 - 1 then some v else none
  else none

/-- Go's `int(v)` on a float64: truncation toward zero. -/
def ratTruncToInt (q : ℚ) : Int :=
  Int.tdiv q.num (q.den : Int)

/-- Unmarshal a JSON value into a plain Go `string` field: `null` leaves
the zero value, a string is taken as is, anything else is a decode
error. -/
def getString (fields : List (String × JVal)) (key : String) : Except String String :=
  match jlookup fields key with
  | none => .ok ""
  | some .null => .ok ""
  | some (.str s) => .ok s
  | some _ => .error ("json: cannot unmarshal value into Go field " ++ key ++ " of type string")

/-- Unmarshal a JSON value into a plain Go `int` field: `null` leaves
the zero value, an integral number is taken, anything else is a decode
error. -/
def getInt (fields : List (String × JVal)) (key : String) : Except String Int :=
  match jlookup fields key with
  | none => .ok 0
  | some .null => .ok 0
  | some (.num q) =>
    if q.den = 1 then .ok q.num
    else .error ("json: cannot unmarshal number into Go field " ++ key ++ " of type int")
  | some _ => .error ("json: cannot unmarshal value into Go field " ++ key ++ " of type int")

/-- The enum string types of the source.  `FontType` has no custom
unmarshaler, the other three do. -/
abbrev FontType := String

abbrev AlignmentType := String

abbrev BarcodeType := String

abbrev DitherMode := String

/-- `AlignmentType.UnmarshalJSON`: the value must be a JSON string among
`left`, `right`, `center`.  On `null`, `json.Unmarshal` into the inner
string is a no-op, leaving the empty string, which then hits the default
branch and errors. -/
def AlignmentType.unmarshalJSON (v : JVal) : Except String AlignmentType :=
  match v with
  | .str s =>
    if s = "left" ∨ s = "right" ∨ s = "center" then .ok s
    else .error ("invalid alignment: " ++ s ++ ". Must be left, right, or center")
  | .null => .error ("invalid alignment: " ++ "" ++ ". Must be left, right, or center")
  | _ => .error "json: cannot unmarshal value into Go value of type string"

/-- `BarcodeType.UnmarshalJSON`: the value must be a JSON string among
the six uppercase symbologies. -/
def BarcodeType.unmarshalJSON (v : JVal) : Except String BarcodeType :=
  match v with
  | .str s =>
    if s = "UPCA" ∨ s = "UPCE" ∨ s = "EAN13" ∨ s = "EAN8" ∨ s = "CODE39" ∨ s = "CODE128" then
      .ok s
    else .error ("invalid barcode type: " ++ s)
  | .null => .error ("invalid barcode type: " ++ "")
  | _ => .error "json: cannot unmarshal value into Go value of type string"

/-- `DitherMode.UnmarshalJSON`: the value must be a JSON string among
`none`, `floydsteinberg`. -/
def DitherMode.unmarshalJSON (v : JVal) : Except String DitherMode :=
  match v with
  | .str s =>
    if s = "none" ∨ s = "floydsteinberg" then .ok s
    else .error ("invalid dither mode: " ++ s)
  | .null => .error ("invalid dither mode: " ++ "")
  | _ => .error "json: cannot unmarshal value into Go value of type string"

/-- Field-level use of `AlignmentType.unmarshalJSON`: the unmarshaler
runs only when the key is present (including on an explicit `null`);
an absent key keeps the zero value `""`. -/
def getAlignmentField (fields : List (String × JVal)) : Except String AlignmentType :=
  match jlookup fields "alignment" with
  | none => .ok ""
  | some v => AlignmentType.unmarshalJSON v

/-- Field-level use of `BarcodeType.unmarshalJSON`. -/
def getBarcodeTypeField (fields : List (String × JVal)) : Except String BarcodeType :=
  match jlookup fields "barcode-type" with
  | none => .ok ""
  | some v => BarcodeType.unmarshalJSON v

/-- Field-level use of `DitherMode.unmarshalJSON`. -/
def getDitherModeField (fields : List (String × JVal)) : Except String DitherMode :=
  match jlookup fields "dither-mode" with
  | none => .ok ""
  | some v => DitherMode.unmarshalJSON v

/-- The `font-size` switch shared verbatim by `Line.UnmarshalJSON` and
`Text.UnmarshalJSON`: a string goes through `json.Number(v).Int64()`
(failure is a decode error), a number is truncated toward zero, and any
other value (absent, null, bool, array, object) silently leaves the
zero value. -/
def goFontSize (v : Option JVal) : Except String Int :=
  match v with
  | some (.str s) =>
    match parseGoInt64 s with
    | some n => .ok n
    | none => .error ("invalid font-size: " ++ s)
  | some (.num q) => .ok (ratTruncToInt q)
  | _ => .ok 0

/-- The `underline` switch shared verbatim by `Line.UnmarshalJSON` and
`Text.UnmarshalJSON`: the string `"true"` means true, any other string
means false, a boolean passes through, anything else leaves false.
It can never fail. -/
def goUnderline (v : Option JVal) : Bool :=
  match v with
  | some (.str s) => s == "true"
  | some (.bool b) => b
  | _ => false

/-- The decoded `Line` struct. -/
structure Line where
  type : String
  content : String
  fontSize : Int
  font : FontType
  alignment : AlignmentType
  underline : Bool
deriving Repr, DecidableEq

/-- The decoded `Text` struct (same fields as `Line`, distinct Go
type). -/
structure Text where
  type : String
  content : String
  fontSize : Int
  font : FontType
  alignment : AlignmentType
  underline : Bool
deriving Repr, DecidableEq

/-- The decoded `Barcode` struct: `type`, `code`, `barcode-type` only —
it carries no alignment field. -/
structure Barcode where
  type : String
  code : String
  barcodeType : BarcodeType
deriving Repr, DecidableEq

/-- The decoded `QRCode` struct. -/
structure QRCode where
  type : String
  code : String
  size : Int
deriving Repr, DecidableEq

/-- The decoded `Image` struct. -/
structure Image where
  type : String
  data : String
  alignment : AlignmentType
  ditherMode : DitherMode
deriving Repr, DecidableEq

/-- `Line.UnmarshalJSON`: plain fields via `encoding/json` (the `Alias`
device), then the two permissive switches for `font-size` and
`underline`. -/
def decodeLine (v : JVal) : Except String Line :=
  match v with
  | .obj fields =>
    (getString fields "type").bind fun ty =>
    (getString fields "content").bind fun content =>
    (getAlignmentField fields).bind fun alignment =>
    (getString fields "font").bind fun font =>
    (goFontSize (jlookup fields "font-size")).bind fun fontSize =>
    .ok ⟨ty, content, fontSize, font, alignment, goUnderline (jlookup fields "underline")⟩
  | .null => .ok ⟨"", "", 0, "", "", false⟩
  | _ => .error "json: cannot unmarshal value into Go value of type Line"

/-- `Text.UnmarshalJSON`: identical code to `Line.UnmarshalJSON`. -/
def decodeText (v : JVal) : Except String Text :=
  match v with
  | .obj fields =>
    (getString fields "type").bind fun ty =>
    (getString fields "content").bind fun content =>
    (getAlignmentField fields).bind fun alignment =>
    (getString fields "font").bind fun font =>
    (goFontSize (jlookup fields "font-size")).bind fun fontSize =>
    .ok ⟨ty, content, fontSize, font, alignment, goUnderline (jlookup fields "underline")⟩
  | .null => .ok ⟨"", "", 0, "", "", false⟩
  | _ => .error "json: cannot unmarshal value into Go value of type Text"

/-- Default `json.Unmarshal` into `Barcode` (no custom unmarshaler on
the struct; `barcode-type` goes through `BarcodeType.UnmarshalJSON`).
Unknown keys, in particular an `alignment` key, are ignored. -/
def decodeBarcode (v : JVal) : Except String Barcode :=
  match v with
  | .obj fields =>
    (getString fields "type").bind fun ty =>
    (getString fields "code").bind fun code =>
    (getBarcodeTypeField fields).bind fun bt =>
    .ok ⟨ty, code, bt⟩
  | .null => .ok ⟨"", "", ""⟩
  | _ => .error "json: cannot unmarshal value into Go value of type Barcode"

/-- Default `json.Unmarshal` into `QRCode`. -/
def decodeQRCode (v : JVal) : Except String QRCode :=
  match v with
  | .obj fields =>
    (getString fields "type").bind fun ty =>
    (getString fields "code").bind fun code =>
    (getInt fields "size").bind fun size =>
    .ok ⟨ty, code, size⟩
  | .null => .ok ⟨"", "", 0⟩
  | _ => .error "json: cannot unmarshal value into Go value of type QRCode"

/-- Default `json.Unmarshal` into `Image` (`alignment` and
`dither-mode` go through their custom unmarshalers). -/
def decodeImage (v : JVal) : Except String Image :=
  match v with
  | .obj fields =>
    (getString fields "type").bind fun ty =>
    (getString fields "data").bind fun data =>
    (getAlignmentField fields).bind fun alignment =>
    (getDitherModeField fields).bind fun dm =>
    .ok ⟨ty, data, alignment, dm⟩
  | .null => .ok ⟨"", "", "", ""⟩
  | _ => .error "json: cannot unmarshal value into Go value of type Image"

/-- Decoding of a `feed` item: the anonymous
`struct { Type string; Lines int }` of `PrintRequest.UnmarshalJSON`,
whose `Lines` is then wrapped as `Feed(feed.Lines)` with
`type Feed int`.  There is no sign validation. -/
def decodeFeedLines (v : JVal) : Except String Int :=
  match v with
  | .obj fields =>
    (getString fields "type").bind fun _ =>
    getInt fields "lines"
  | .null => .ok 0
  | _ => .error "json: cannot unmarshal value into Go value of type feed"

/-- A decoded receipt item: the dynamic `ReceiptItem` interface value,
one of the six variants (`Feed` is a bare `int` in the source). -/
inductive ReceiptItem where
  | line (l : Line)
  | text (t : Text)
  | barcode (b : Barcode)
  | qr (q : QRCode)
  | image (i : Image)
  | feed (lines : Int)
deriving Repr, DecidableEq

/-- The type-discriminator extraction of `PrintRequest.UnmarshalJSON`:
`json.Unmarshal(itemData, &typeExtractor)`.  A non-object item is an
extraction error; an absent or `null` `type` key leaves the zero value
`""`; a non-string `type` is an extraction error. -/
def extractType (item : JVal) : Except String String :=
  match item with
  | .obj fields =>
    match jlookup fields "type" with
    | none => .ok ""
    | some .null => .ok ""
    | some (.str s) => .ok s
    | some _ => .error "error extracting type from item"
  | .null => .ok ""
  | _ => .error "error extracting type from item"

/-- Dispatch on the discriminator, as in the `switch` of
`PrintRequest.UnmarshalJSON`; an unknown value is a fatal error. -/
def decodeItem (item : JVal) : Except String ReceiptItem :=
  (extractType item).bind fun t =>
    if t = "line" then (decodeLine item).map .line
    else if t = "barcode" then (decodeBarcode item).map .barcode
    else if t = "qr" then (decodeQRCode item).map .qr
    else if t = "image" then (decodeImage item).map .image
    else if t = "text" then (decodeText item).map .text
    else if t = "feed" then (decodeFeedLines item).map .feed
    else .error ("unknown receipt item type: " ++ t)

/-- The item loop of `PrintRequest.UnmarshalJSON`: items are decoded in
order and the first error aborts the whole job. -/
def decodeItems (items : List JVal) : Except String (List ReceiptItem) :=
  match items with
  | [] => .ok []
  | x :: xs =>
    (decodeItem x).bind fun i =>
    (decodeItems xs).bind fun rest =>
    .ok (i :: rest)

/-- `PrintRequest.UnmarshalJSON`: read the `receipt` array (absent or
`null` gives the empty job) and decode every item. -/
def decodePrintRequest (v : JVal) : Except String (List ReceiptItem) :=
  match v with
  | .obj fields =>
    match jlookup fields "receipt" with
    | none => .ok []
    | some .null => .ok []
    | some (.arr items) => decodeItems items
    | some _ => .error "json: cannot unmarshal value into Go field receipt"
  | .null => .ok []
  | _ => .error "json: cannot unmarshal value into Go value of type PrintRequest"

/-- Go's default `json.Marshal` on a decoded item: each struct marshals
its fields in declaration order under their json tags; `Feed`, being
`type Feed int`, marshals as a bare JSON number with no `type`
discriminator. -/
def marshalItem (i : ReceiptItem) : JVal :=
  match i with
  | .line l => .obj [("type", .str l.type), ("content", .str l.content),
      ("font-size", .num (l.fontSize : ℚ)), ("font", .str l.font),
      ("alignment", .str l.alignment), ("underline", .bool l.underline)]
  | .text t => .obj [("type", .str t.type), ("content", .str t.content),
      ("font-size", .num (t.fontSize : ℚ)), ("font", .str t.font),
      ("alignment", .str t.alignment), ("underline", .bool t.underline)]
  | .barcode b => .obj [("type", .str b.type), ("code", .str b.code),
      ("barcode-type", .str b.barcodeType)]
  | .qr q => .obj [("type", .str q.type), ("code", .str q.code),
      ("size", .num (q.size : ℚ))]
  | .image im => .obj [("type", .str im.type), ("data", .str im.data),
      ("alignment", .str im.alignment), ("dither-mode", .str im.ditherMode)]
  | .feed n => .num (n : ℚ)

/-- Go's default `json.Marshal` on a `PrintRequest`. -/
def marshalPrintRequest (r : List ReceiptItem) : JVal :=
  .obj [("receipt", .arr (r.map marshalItem))]

/-- The `escpos` device font constants. -/
inductive EscposFont where
  | fontA | fontB | fontC
deriving Repr, DecidableEq

/-- The `escpos` device alignment constants. -/
inductive EscposAlignment where
  | left | center | right
deriving Repr, DecidableEq

/-- The `escpos` device barcode symbology constants. -/
inductive EscposBarcodeType where
  | CODABAR | CODE128 | CODE39 | EAN13 | EAN8 | ITF | UPCA | UPCE
deriving Repr, DecidableEq

/-- `FontType.ToEscposFont`: `A`/`B`/`C` map to the device fonts,
anything else silently defaults to font A. -/
def FontType.toEscposFont (f : FontType) : EscposFont :=
  if f = "A" then .fontA
  else if f = "B" then .fontB
  else if f = "C" then .fontC
  else .fontA

/-- `AlignmentType.ToEscposAlignment`: unknown values default to
left. -/
def AlignmentType.toEscposAlignment (a : AlignmentType) : EscposAlignment :=
  if a = "left" then .left
  else if a = "right" then .right
  else if a = "center" then .center
  else .left

/-- `BarcodeType.ToEscposBarcodeType` exactly as in `handlers.go`: the
switch compares against LOWERCASE literals, and the default branch
(`// shits fucked if we are here`) returns `BarcodeTypeCODABAR`. -/
def BarcodeType.toEscposBarcodeType (t : BarcodeType) : EscposBarcodeType :=
  if t = "codabar" then .CODABAR
  else if t = "code128" then .CODE128
  else if t = "code39" then .CODE39
  else if t = "ean13" then .EAN13
  else if t = "ean8" then .EAN8
  else if t = "itf" then .ITF
  else if t = "upca" then .UPCA
  else if t = "upce" then .UPCE
  else .CODABAR

/-- An operation issued to the device handle by `handlePrint`. -/
inductive DeviceOp where
  | font (f : EscposFont)
  | align (a : EscposAlignment)
  | size (w h : Nat)
  | underline (b : Bool)
  | printLine (s : String)
  | printText (s : String)
  | feed (lines : Int)
  | barcode (code : String) (t : EscposBarcodeType)
  | qr (code : String) (size : Int)
  | image (i : Image)
  | cut
deriving Repr, DecidableEq

/-- Go's `uint8(v.FontSize)`: the low byte of the int. -/
def goUInt8 (n : Int) : Nat := (n % 256).toNat

/-- Device operations issued for one decoded item by the `switch` in
`handlePrint`: text items re-assert font, alignment, size and underline
before emitting; barcodes and QR codes force center alignment; a
barcode emission failure inside the device library is logged and does
not stop the loop. -/
def execItem (i : ReceiptItem) : List DeviceOp :=
  match i with
  | .line l => [.font (FontType.toEscposFont l.font),
      .align (AlignmentType.toEscposAlignment l.alignment),
      .size (goUInt8 l.fontSize) (goUInt8 l.fontSize),
      .underline l.underline, .printLine l.content]
  | .text t => [.font (FontType.toEscposFont t.font),
      .align (AlignmentType.toEscposAlignment t.alignment),
      .size (goUInt8 t.fontSize) (goUInt8 t.fontSize),
      .underline t.underline, .printText t.content]
  | .feed n => [.feed n]
  | .barcode b => [.align .center,
      .barcode b.code (BarcodeType.toEscposBarcodeType b.barcodeType)]
  | .qr q => [.align .center, .qr q.code q.size]
  | .image im => [.image im]

/-- The body of `handlePrint` once the printer mutex is held: a decode
failure answers 400 with no device operation at all; otherwise every
item is executed in order and a final unconditional `p.Cut()` is
issued, then 200. -/
def handlePrint (body : JVal) : Nat × List DeviceOp :=
  match decodePrintRequest body with
  | .error _ => (400, [])
  | .ok items => (200, (items.map execItem).flatten ++ [DeviceOp.cut])

/-- The alignment values a decoded command can carry: a member of the
closed set, or the empty string left by an absent field. -/
def alignOk (a : AlignmentType) : Prop :=
  a = "" ∨ a = "left" ∨ a = "right" ∨ a = "center"

/-- The barcode-type values a decoded command can carry. -/
def barcodeTypeOk (b : BarcodeType) : Prop :=
  b = "" ∨ b = "UPCA" ∨ b = "UPCE" ∨ b = "EAN13" ∨ b = "EAN8" ∨ b = "CODE39" ∨ b = "CODE128"

/-- The dither-mode values a decoded command can carry. -/
def ditherModeOk (d : DitherMode) : Prop :=
  d = "" ∨ d = "none" ∨ d = "floydsteinberg"

/-- The enum discipline decode actually enforces: closed-set-or-absent
for alignment, barcode type and dither mode.  The font field carries no
constraint. -/
def commandEnumsOk (i : ReceiptItem) : Prop :=
  match i with
  | .line l => alignOk l.alignment
  | .text t => alignOk t.alignment
  | .barcode b => barcodeTypeOk b.barcodeType
  | .image im => alignOk im.alignment ∧ ditherModeOk im.ditherMode
  | .qr _ => True
  | .feed _ => True

/-- Decoded items whose re-serialization decodes back to themselves:
the five struct variants with their discriminator intact and their
custom-validated enum fields actually inside the closed set.  `Feed` is
excluded: as a bare `int` it re-serializes without a discriminator. -/
def goodItem (i : ReceiptItem) : Prop :=
  match i with
  | .line l => l.type = "line" ∧ (l.alignment = "left" ∨ l.alignment = "right" ∨ l.alignment = "center")
  | .text t => t.type = "text" ∧ (t.alignment = "left" ∨ t.alignment = "right" ∨ t.alignment = "center")
  | .barcode b => b.type = "barcode" ∧
      (b.barcodeType = "UPCA" ∨ b.barcodeType = "UPCE" ∨ b.barcodeType = "EAN13" ∨
       b.barcodeType = "EAN8" ∨ b.barcodeType = "CODE39" ∨ b.barcodeType = "CODE128")
  | .qr q => q.type = "qr"
  | .image im => im.type = "image" ∧
      (im.alignment = "left" ∨ im.alignment = "right" ∨ im.alignment = "center") ∧
      (im.ditherMode = "none" ∨ im.ditherMode = "floydsteinberg")
  | .feed _ => False

/-- Number of paper-cut operations in a device-operation list. -/
def countCut (ops : List DeviceOp) : Nat :=
  match ops with
  | [] => 0
  | DeviceOp.cut :: rest => countCut rest + 1
  | _ :: rest => countCut rest

lemma ratTruncToInt_intCast (n : Int) : ratTruncToInt (n : ℚ) = n := by
  simp [ratTruncToInt, Rat.num_intCast, Rat.den_intCast]

lemma jlookup_cons_ne (k key : String) (v : JVal) (fields : List (String × JVal))
    (h : k ≠ key) : jlookup ((k, v) :: fields) key = jlookup fields key := by
  cases h2 : jlookup fields key <;> simp [jlookup, h2, h]

lemma exceptBind_ok_iff {α β : Type} (x : Except String α) (f : α → Except String β)
    (b : β) : x.bind f = .ok b ↔ ∃ a, x = .ok a ∧ f a = .ok b := by
  cases x <;> simp [Except.bind]

lemma exceptMap_ok_iff {α β : Type} (x : Except String α) (f : α → β)
    (b : β) : x.map f = .ok b ↔ ∃ a, x = .ok a ∧ f a = b := by
  cases x <;> simp [Except.map]

lemma getAlignmentField_alignOk (fields : List (String × JVal)) (a : AlignmentType)
    (h : getAlignmentField fields = .ok a) : alignOk a := by
  unfold getAlignmentField at h
  cases h2 : jlookup fields "alignment" with
  | none =>
    rw [h2] at h
    cases h
    exact Or.inl rfl
  | some v =>
    rw [h2] at h
    cases v <;> simp [AlignmentType.unmarshalJSON] at h
    rename_i s
    split at h
    · cases h
      rename_i hs
      exact Or.inr hs
    · cases h

lemma getBarcodeTypeField_ok (fields : List (String × JVal)) (b : BarcodeType)
    (h : getBarcodeTypeField fields = .ok b) : barcodeTypeOk b := by
  unfold getBarcodeTypeField at h
  cases h2 : jlookup fields "barcode-type" with
  | none =>
    rw [h2] at h
    cases h
    exact Or.inl rfl
  | some v =>
    rw [h2] at h
    cases v <;> simp [BarcodeType.unmarshalJSON] at h
    rename_i s
    split at h
    · cases h
      rename_i hs
      exact Or.inr hs
    · cases h

lemma getDitherModeField_ok (fields : List (String × JVal)) (d : DitherMode)
    (h : getDitherModeField fields = .ok d) : ditherModeOk d := by
  unfold getDitherModeField at h
  cases h2 : jlookup fields "dither-mode" with
  | none =>
    rw [h2] at h
    cases h
    exact Or.inl rfl
  | some v =>
    rw [h2] at h
    cases v <;> simp [DitherMode.unmarshalJSON] at h
    rename_i s
    split at h
    · cases h
      rename_i hs
      exact Or.inr hs
    · cases h

lemma decodeLine_alignOk (v : JVal) (l : Line) (h : decodeLine v = .ok l) :
    alignOk l.alignment := by
  cases v with
  | obj fields =>
    simp only [decodeLine] at h
    rw [exceptBind_ok_iff] at h
    obtain ⟨ty, _, h⟩ := h
    rw [exceptBind_ok_iff] at h
    obtain ⟨content, _, h⟩ := h
    rw [exceptBind_ok_iff] at h
    obtain ⟨alignment, hal, h⟩ := h
    rw [exceptBind_ok_iff] at h
    obtain ⟨font, _, h⟩ := h
    rw [exceptBind_ok_iff] at h
    obtain ⟨fontSize, _, h⟩ := h
    cases h
    exact getAlignmentField_alignOk fields alignment hal
  | null =>
    cases h
    exact Or.inl rfl
  | bool b => cases h
  | num q => cases h
  | str s => cases h
  | arr xs => cases h

lemma decodeText_alignOk (v : JVal) (t : Text) (h : decodeText v = .ok t) :
    alignOk t.alignment := by
  cases v with
  | obj fields =>
    simp only [decodeText] at h
    rw [exceptBind_ok_iff] at h
    obtain ⟨ty, _, h⟩ := h
    rw [exceptBind_ok_iff] at h
    obtain ⟨content, _, h⟩ := h
    rw [exceptBind_ok_iff] at h
    obtain ⟨alignment, hal, h⟩ := h
    rw [exceptBind_ok_iff] at h
    obtain ⟨font, _, h⟩ := h
    rw [exceptBind_ok_iff] at h
    obtain ⟨fontSize, _, h⟩ := h
    cases h
    exact getAlignmentField_alignOk fields alignment hal
  | null =>
    cases h
    exact Or.inl rfl
  | bool b => cases h
  | num q => cases h
  | str s => cases h
  | arr xs => cases h

lemma decodeBarcode_typeOk (v : JVal) (b : Barcode) (h : decodeBarcode v = .ok b) :
    barcodeTypeOk b.barcodeType := by
  cases v with
  | obj fields =>
    simp only [decodeBarcode] at h
    rw [exceptBind_ok_iff] at h
    obtain ⟨ty, _, h⟩ := h
    rw [exceptBind_ok_iff] at h
    obtain ⟨code, _, h⟩ := h
    rw [exceptBind_ok_iff] at h
    obtain ⟨bt, hbt, h⟩ := h
    cases h
    exact getBarcodeTypeField_ok fields bt hbt
  | null =>
    cases h
    exact Or.inl rfl
  | bool bb => cases h
  | num q => cases h
  | str s => cases h
  | arr xs => cases h

lemma decodeImage_enumsOk (v : JVal) (im : Image) (h : decodeImage v = .ok im) :
    alignOk im.alignment ∧ ditherModeOk im.ditherMode := by
  cases v with
  | obj fields =>
    simp only [decodeImage] at h
    rw [exceptBind_ok_iff] at h
    obtain ⟨ty, _, h⟩ := h
    rw [exceptBind_ok_iff] at h
    obtain ⟨data, _, h⟩ := h
    rw [exceptBind_ok_iff] at h
    obtain ⟨alignment, hal, h⟩ := h
    rw [exceptBind_ok_iff] at h
    obtain ⟨dm, hdm, h⟩ := h
    cases h
    exact ⟨getAlignmentField_alignOk fields alignment hal,
           getDitherModeField_ok fields dm hdm⟩
  | null =>
    cases h
    exact ⟨Or.inl rfl, Or.inl rfl⟩
  | bool b => cases h
  | num q => cases h
  | str s => cases h
  | arr xs => cases h

lemma decodeItem_enumsOk (x : JVal) (y : ReceiptItem) (h : decodeItem x = .ok y) :
    commandEnumsOk y := by
  simp only [decodeItem] at h
  rw [exceptBind_ok_iff] at h
  obtain ⟨t, _, h⟩ := h
  split at h
  · rw [exceptMap_ok_iff] at h
    obtain ⟨l, hl, rfl⟩ := h
    exact decodeLine_alignOk x l hl
  · split at h
    · rw [exceptMap_ok_iff] at h
      obtain ⟨b, hb, rfl⟩ := h
      exact decodeBarcode_typeOk x b hb
    · split at h
      · rw [exceptMap_ok_iff] at h
        obtain ⟨q, _, rfl⟩ := h
        trivial
      · split at h
        · rw [exceptMap_ok_iff] at h
          obtain ⟨im, him, rfl⟩ := h
          exact decodeImage_enumsOk x im him
        · split at h
          · rw [exceptMap_ok_iff] at h
            obtain ⟨tx, htx, rfl⟩ := h
            exact decodeText_alignOk x tx htx
          · split at h
            · rw [exceptMap_ok_iff] at h
              obtain ⟨n, _, rfl⟩ := h
              trivial
            · cases h

lemma decodeItems_ok_of_mem (xs : List JVal) (ys : List ReceiptItem)
    (h : decodeItems xs = .ok ys) :
    ∀ x ∈ xs, ∃ y, decodeItem x = .ok y := by
  induction xs generalizing ys with
  | nil => intro x hx; cases hx
  | cons a rest ih =>
    simp only [decodeItems] at h
    rw [exceptBind_ok_iff] at h
    obtain ⟨i, hi, h⟩ := h
    rw [exceptBind_ok_iff] at h
    obtain ⟨tail, htail, _⟩ := h
    intro x hx
    cases hx with
    | head => exact ⟨i, hi⟩
    | tail _ hmem => exact ih tail htail x hmem

lemma decodeItems_mem_decoded (xs : List JVal) (ys : List ReceiptItem)
    (h : decodeItems xs = .ok ys) :
    ∀ y ∈ ys, ∃ x ∈ xs, decodeItem x = .ok y := by
  induction xs generalizing ys with
  | nil =>
    cases h
    intro y hy; cases hy
  | cons a rest ih =>
    simp only [decodeItems] at h
    rw [exceptBind_ok_iff] at h
    obtain ⟨i, hi, h⟩ := h
    rw [exceptBind_ok_iff] at h
    obtain ⟨tail, htail, h⟩ := h
    cases h
    intro y hy
    cases hy with
    | head => exact ⟨a, List.mem_cons_self a rest, hi⟩
    | tail _ hmem =>
      obtain ⟨x, hx, hdx⟩ := ih tail htail y hmem
      exact ⟨x, List.mem_cons_of_mem a hx, hdx⟩

lemma roundtripLine (l : Line) (hty : l.type = "line")
    (hal : l.alignment = "left" ∨ l.alignment = "right" ∨ l.alignment = "center") :
    decodeItem (marshalItem (.line l)) = .ok (.line l) := by
  obtain ⟨ty, content, fs, font, al, ul⟩ := l
  simp only at hty hal
  subst hty
  rcases hal with h | h | h <;> subst h <;>
    simp [decodeItem, marshalItem, extractType, decodeLine, getString, getAlignmentField,
      AlignmentType.unmarshalJSON, goFontSize, goUnderline, jlookup, Except.bind, Except.map,
      ratTruncToInt_intCast]

lemma roundtripText (t : Text) (hty : t.type = "text")
    (hal : t.alignment = "left" ∨ t.alignment = "right" ∨ t.alignment = "center") :
    decodeItem (marshalItem (.text t)) = .ok (.text t) := by
  obtain ⟨ty, content, fs, font, al, ul⟩ := t
  simp only at hty hal
  subst hty
  rcases hal with h | h | h <;> subst h <;>
    simp [decodeItem, marshalItem, extractType, decodeText, getString, getAlignmentField,
      AlignmentType.unmarshalJSON, goFontSize, goUnderline, jlookup, Except.bind, Except.map,
      ratTruncToInt_intCast]

lemma roundtripBarcode (b : Barcode) (hty : b.type = "barcode")
    (hbt : b.barcodeType = "UPCA" ∨ b.barcodeType = "UPCE" ∨ b.barcodeType = "EAN13" ∨
      b.barcodeType = "EAN8" ∨ b.barcodeType = "CODE39" ∨ b.barcodeType = "CODE128") :
    decodeItem (marshalItem (.barcode b)) = .ok (.barcode b) := by
  obtain ⟨ty, code, bt⟩ := b
  simp only at hty hbt
  subst hty
  rcases hbt with h | h | h | h | h | h <;> subst h <;>
    simp [decodeItem, marshalItem, extractType, decodeBarcode, getString, getBarcodeTypeField,
      BarcodeType.unmarshalJSON, jlookup, Except.bind, Except.map]

lemma roundtripQRCode (q : QRCode) (hty : q.type = "qr") :
    decodeItem (marshalItem (.qr q)) = .ok (.qr q) := by
  obtain ⟨ty, code, size⟩ := q
  simp only at hty
  subst hty
  simp [decodeItem, marshalItem, extractType, decodeQRCode, getString, getInt,
    jlookup, Except.bind, Except.map, Rat.den_intCast, Rat.num_intCast]

lemma roundtripImage (im : Image) (hty : im.type = "image")
    (hal : im.alignment = "left" ∨ im.alignment = "right" ∨ im.alignment = "center")
    (hdm : im.ditherMode = "none" ∨ im.ditherMode = "floydsteinberg") :
    decodeItem (marshalItem (.image im)) = .ok (.image im) := by
  obtain ⟨ty, data, al, dm⟩ := im
  simp only at hty hal hdm
  subst hty
  rcases hal with h | h | h <;> subst h <;> rcases hdm with h2 | h2 <;> subst h2 <;>
    simp [decodeItem, marshalItem, extractType, decodeImage, getString, getAlignmentField,
      getDitherModeField, AlignmentType.unmarshalJSON, DitherMode.unmarshalJSON,
      jlookup, Except.bind, Except.map]

lemma roundtripItem (i : ReceiptItem) (h : goodItem i) :
    decodeItem (marshalItem i) = .ok i := by
  cases i with
  | line l => exact roundtripLine l h.1 h.2
  | text t => exact roundtripText t h.1 h.2
  | barcode b => exact roundtripBarcode b h.1 h.2
  | qr q => exact roundtripQRCode q h
  | image im => exact roundtripImage im h.1 h.2.1 h.2.2
  | feed n => cases h

lemma decodeItems_marshal (r : List ReceiptItem) (h : ∀ i ∈ r, goodItem i) :
    decodeItems (r.map marshalItem) = .ok r := by
  induction r with
  | nil => rfl
  | cons a rest ih =>
    simp only [List.map_cons, decodeItems]
    rw [roundtripItem a (h a (List.mem_cons_self a rest))]
    rw [ih (fun i hi => h i (List.mem_cons_of_mem a hi))]
    rfl

lemma countCut_execItem (i : ReceiptItem) : countCut (execItem i) = 0 := by
  cases i <;> rfl

lemma countCut_append (a b : List DeviceOp) :
    countCut (a ++ b) = countCut a + countCut b := by
  induction a with
  | nil => simp [countCut]
  | cons x rest ih =>
    cases x <;> simp [countCut, List.cons_append, ih, Nat.add_right_comm]

lemma countCut_exec_flatten (items : List ReceiptItem) :
    countCut ((items.map execItem).flatten) = 0 := by
  induction items with
  | nil => rfl
  | cons a rest ih =>
    simp only [List.map_cons, List.flatten_cons, countCut_append, countCut_execItem, ih]


/-- Claim C7: a job containing an item whose type discriminator is
absent or unknown fails decode as a whole, and zero device operations
are issued. -/
theorem c7_unknown_type_all_or_nothing
    (items : List JVal) (x : JVal) (t : String)
    (hmem : x ∈ items) (ht : extractType x = .ok t)
    (h1 : t ≠ "line") (h2 : t ≠ "barcode") (h3 : t ≠ "qr") (h4 : t ≠ "image")
    (h5 : t ≠ "text") (h6 : t ≠ "feed") :
    handlePrint (.obj [("receipt", .arr items)]) = (400, []) := by
  have hbad : ∀ y, decodeItem x ≠ Except.ok y := by
    intro y hy
    simp only [decodeItem, ht, Except.bind] at hy
    rw [if_neg h1, if_neg h2, if_neg h3, if_neg h4, if_neg h5, if_neg h6] at hy
    cases hy
  have hdec : decodePrintRequest (.obj [("receipt", .arr items)]) = decodeItems items := by
    simp [decodePrintRequest, jlookup]
  cases hq : decodeItems items with
  | error e => simp [handlePrint, hdec, hq]
  | ok ys =>
    obtain ⟨y, hy⟩ := decodeItems_ok_of_mem items ys hq x hmem
    exact absurd hy (hbad y)

theorem c7_witness :
    (JVal.obj [("type", JVal.str "bogus")]) ∈ [JVal.obj [("type", JVal.str "bogus")]] ∧
    extractType (JVal.obj [("type", JVal.str "bogus")]) = .ok "bogus" ∧
    handlePrint (.obj [("receipt", .arr [JVal.obj [("type", JVal.str "bogus")]])]) = (400, []) := by
  refine ⟨List.mem_singleton.mpr rfl, rfl, ?_⟩
  exact c7_unknown_type_all_or_nothing _ _ "bogus" (List.mem_singleton.mpr rfl) rfl
    (by decide) (by decide) (by decide) (by decide) (by decide) (by decide)

/-- Claim C8: every job that reaches execution gets exactly one
paper-cut, as the last device operation, even when empty. -/
theorem c8_unconditional_cut (body : JVal) (items : List ReceiptItem)
    (h : decodePrintRequest body = .ok items) :
    (handlePrint body).1 = 200 ∧
    countCut (handlePrint body).2 = 1 ∧
    (handlePrint body).2.getLast? = some DeviceOp.cut ∧
    (items = [] → (handlePrint body).2 = [DeviceOp.cut]) := by
  simp only [handlePrint, h]
  refine ⟨trivial, ?_, ?_, ?_⟩
  · simp [countCut_append, countCut_exec_flatten, countCut]
  · simp [List.getLast?_concat]
  · rintro rfl; rfl

theorem c8_witness :
    decodePrintRequest (JVal.obj [("receipt", JVal.arr [])]) = .ok [] ∧
    countCut (handlePrint (JVal.obj [("receipt", JVal.arr [])])).2 = 1 ∧
    (handlePrint (JVal.obj [("receipt", JVal.arr [])])).2 = [DeviceOp.cut] := by
  refine ⟨rfl,
    (c8_unconditional_cut (JVal.obj [("receipt", JVal.arr [])]) [] rfl).2.1,
    (c8_unconditional_cut (JVal.obj [("receipt", JVal.arr [])]) [] rfl).2.2.2 rfl⟩

/-- Claim C9: a decoded barcode command carries no alignment (an
alignment key in the raw payload is ignored by decode), and execution
sets center alignment immediately before emitting the barcode. -/
theorem c9_barcode_always_centered :
    (∀ (vv : JVal) (fields : List (String × JVal)),
      decodeBarcode (.obj (("alignment", vv) :: fields)) = decodeBarcode (.obj fields))
    ∧ (∀ b : Barcode, execItem (.barcode b) =
        [.align .center, .barcode b.code (BarcodeType.toEscposBarcodeType b.barcodeType)]) := by
  constructor
  · intro vv fields
    simp only [decodeBarcode, getString, getBarcodeTypeField]
    rw [jlookup_cons_ne "alignment" "type" vv fields (by decide),
        jlookup_cons_ne "alignment" "code" vv fields (by decide),
        jlookup_cons_ne "alignment" "barcode-type" vv fields (by decide)]
  · intro b
    rfl


/-- Claim C2 (code bug in the source): decode-time validation accepts
exactly the six UPPERCASE symbologies, but `ToEscposBarcodeType`
compares against lowercase literals, so every decode-valid barcode type
falls through to the default branch and is emitted as CODABAR, not in
its requested symbology. -/
theorem c2_symbology_translation_broken :
    decodePrintRequest (JVal.obj [("receipt", JVal.arr [JVal.obj
      [("type", JVal.str "barcode"), ("code", JVal.str "123456789012"),
       ("barcode-type", JVal.str "CODE128")]])]) =
      .ok [.barcode ⟨"barcode", "123456789012", "CODE128"⟩] ∧
    execItem (.barcode ⟨"barcode", "123456789012", "CODE128"⟩) =
      [.align .center, .barcode "123456789012" EscposBarcodeType.CODABAR] ∧
    BarcodeType.toEscposBarcodeType "UPCA" = EscposBarcodeType.CODABAR ∧
    BarcodeType.toEscposBarcodeType "UPCE" = EscposBarcodeType.CODABAR ∧
    BarcodeType.toEscposBarcodeType "EAN13" = EscposBarcodeType.CODABAR ∧
    BarcodeType.toEscposBarcodeType "EAN8" = EscposBarcodeType.CODABAR ∧
    BarcodeType.toEscposBarcodeType "CODE39" = EscposBarcodeType.CODABAR ∧
    BarcodeType.toEscposBarcodeType "CODE128" = EscposBarcodeType.CODABAR ∧
    EscposBarcodeType.CODABAR ≠ EscposBarcodeType.CODE128 := by
  refine ⟨rfl, rfl, rfl, rfl, rfl, rfl, rfl, rfl, ?_⟩
  decide

/-- Claim C4 counterexample: a feed item with negative lines decodes
successfully, so a Feed command with lines below zero does appear in a
successfully decoded sequence. -/
theorem c4_negative_feed_counterexample :
    decodePrintRequest (JVal.obj [("receipt", JVal.arr [JVal.obj
      [("type", JVal.str "feed"), ("lines", JVal.num (-1))]])]) =
      .ok [.feed (-1)] ∧ (-1 : Int) < 0 := by
  exact ⟨rfl, by decide⟩

/-- Claim C4 (amended): decoding performs no sign validation on
`Feed.lines` at all — any integral value, negative included, decodes to
a Feed command carrying exactly that value. -/
theorem c4_no_sign_validation (n : Int) :
    decodePrintRequest (JVal.obj [("receipt", JVal.arr [JVal.obj
      [("type", JVal.str "feed"), ("lines", JVal.num (n : ℚ))]])]) =
      .ok [.feed n] := by
  simp [decodePrintRequest, decodeItems, decodeItem, extractType, decodeFeedLines,
    getString, getInt, jlookup, Except.bind, Except.map, Rat.den_intCast, Rat.num_intCast]

/-- Claim C1 counterexample: a line item whose font is "D" — outside
the closed set {A,B,C} — decodes successfully, so an enum value outside
its closed set is not always a decode error. -/
theorem c1_font_not_validated_counterexample :
    decodePrintRequest (JVal.obj [("receipt", JVal.arr [JVal.obj
      [("type", JVal.str "line"), ("content", JVal.str "x"), ("font", JVal.str "D")]])]) =
      .ok [.line ⟨"line", "x", 0, "D", "", false⟩] ∧
    ¬((⟨"line", "x", 0, "D", "", false⟩ : Line).font = "A" ∨
      (⟨"line", "x", 0, "D", "", false⟩ : Line).font = "B" ∨
      (⟨"line", "x", 0, "D", "", false⟩ : Line).font = "C") := by
  exact ⟨rfl, by decide⟩

/-- Claim C3 counterexample: a job holding one Feed command decodes,
but its re-serialization is a bare JSON number with no discriminator,
and re-decoding it fails — decode, marshal, decode is not the
identity on jobs containing Feed. -/
theorem c3_feed_roundtrip_counterexample :
    decodePrintRequest (JVal.obj [("receipt", JVal.arr [JVal.obj
      [("type", JVal.str "feed"), ("lines", JVal.num 2)]])]) = .ok [.feed 2] ∧
    marshalPrintRequest [.feed 2] = JVal.obj [("receipt", JVal.arr [JVal.num ((2 : Int) : ℚ)])] ∧
    decodePrintRequest (marshalPrintRequest [.feed 2]) =
      .error "error extracting type from item" := by
  exact ⟨rfl, rfl, rfl⟩


lemma getString_cons (k key : String) (v : JVal) (fields : List (String × JVal))
    (h : k ≠ key) : getString ((k, v) :: fields) key = getString fields key := by
  simp [getString, jlookup_cons_ne k key v fields h]

lemma getAlignmentField_cons (k : String) (v : JVal) (fields : List (String × JVal))
    (h : k ≠ "alignment") :
    getAlignmentField ((k, v) :: fields) = getAlignmentField fields := by
  simp [getAlignmentField, jlookup_cons_ne k "alignment" v fields h]

/-- Claim C1 (amended): in a successfully decoded job every command's
alignment, barcode type and dither mode are inside their closed set or
the empty string left by an absent field, and a present string outside
the closed set is a decode error for those three enums; the font field
is not validated at decode time (see the counterexample). -/
theorem c1_enum_validation :
    (∀ (j : JVal) (r : List ReceiptItem), decodePrintRequest j = .ok r →
      ∀ i ∈ r, commandEnumsOk i)
    ∧ (∀ s : String, ¬(s = "left" ∨ s = "right" ∨ s = "center") →
        AlignmentType.unmarshalJSON (JVal.str s) =
          .error ("invalid alignment: " ++ s ++ ". Must be left, right, or center"))
    ∧ (∀ s : String, ¬(s = "UPCA" ∨ s = "UPCE" ∨ s = "EAN13" ∨ s = "EAN8" ∨
          s = "CODE39" ∨ s = "CODE128") →
        BarcodeType.unmarshalJSON (JVal.str s) = .error ("invalid barcode type: " ++ s))
    ∧ (∀ s : String, ¬(s = "none" ∨ s = "floydsteinberg") →
        DitherMode.unmarshalJSON (JVal.str s) = .error ("invalid dither mode: " ++ s)) := by
  refine ⟨?_, ?_, ?_, ?_⟩
  · intro j r h i hi
    cases j with
    | obj fields =>
      simp only [decodePrintRequest] at h
      split at h
      · cases h; cases hi
      · cases h; cases hi
      · obtain ⟨x, _, hdx⟩ := decodeItems_mem_decoded _ r h i hi
        exact decodeItem_enumsOk x i hdx
      · cases h
    | null => cases h; cases hi
    | bool b => cases h
    | num q => cases h
    | str s => cases h
    | arr xs => cases h
  · intro s hs
    simp only [AlignmentType.unmarshalJSON]
    rw [if_neg hs]
  · intro s hs
    simp only [BarcodeType.unmarshalJSON]
    rw [if_neg hs]
  · intro s hs
    simp only [DitherMode.unmarshalJSON]
    rw [if_neg hs]

theorem c1_enum_validation_witness :
    (∀ i ∈ [ReceiptItem.line ⟨"line", "", 0, "", "center", false⟩], commandEnumsOk i) ∧
    AlignmentType.unmarshalJSON (JVal.str "up") =
      .error ("invalid alignment: " ++ "up" ++ ". Must be left, right, or center") ∧
    BarcodeType.unmarshalJSON (JVal.str "QR") = .error ("invalid barcode type: " ++ "QR") ∧
    DitherMode.unmarshalJSON (JVal.str "bayer") =
      .error ("invalid dither mode: " ++ "bayer") := by
  refine ⟨c1_enum_validation.1 (JVal.obj [("receipt", JVal.arr [JVal.obj
      [("type", JVal.str "line"), ("alignment", JVal.str "center")]])])
      [ReceiptItem.line ⟨"line", "", 0, "", "center", false⟩] rfl,
    c1_enum_validation.2.1 "up" (by decide),
    c1_enum_validation.2.2.1 "QR" (by decide),
    c1_enum_validation.2.2.2 "bayer" (by decide)⟩

/-- Claim C3 (amended): decode, re-serialize, decode is the identity on
decoded sequences whose items are the five struct variants with their
validated enum fields inside the closed sets; jobs containing Feed
break it (see the counterexample). -/
theorem c3_decode_marshal_decode (j : JVal) (r : List ReceiptItem)
    (_hdec : decodePrintRequest j = .ok r) (hgood : ∀ i ∈ r, goodItem i) :
    decodePrintRequest (marshalPrintRequest r) = .ok r := by
  have hm : decodePrintRequest (marshalPrintRequest r) = decodeItems (r.map marshalItem) := by
    simp [marshalPrintRequest, decodePrintRequest, jlookup]
  rw [hm, decodeItems_marshal r hgood]

theorem c3_roundtrip_witness :
    decodePrintRequest (marshalPrintRequest
      [ReceiptItem.line ⟨"line", "hi", 2, "A", "center", true⟩]) =
      .ok [ReceiptItem.line ⟨"line", "hi", 2, "A", "center", true⟩] := by
  refine c3_decode_marshal_decode (JVal.obj [("receipt", JVal.arr [JVal.obj
      [("type", JVal.str "line"), ("content", JVal.str "hi"), ("font-size", JVal.num 2),
       ("font", JVal.str "A"), ("alignment", JVal.str "center"),
       ("underline", JVal.bool true)]])]) _ rfl ?_
  intro i hi
  rw [List.mem_singleton] at hi
  subst hi
  exact ⟨rfl, Or.inr (Or.inr rfl)⟩


/-- Claim C5: a digit-string font-size decodes to the identical Command
as the corresponding integer ("3" versus 3, and generally any string
`strconv.ParseInt` accepts), a JSON number is truncated toward zero,
and an unparseable font-size string is a decode error. -/
theorem c5_fontsize_coercion :
    (∀ fields, decodeLine (.obj (("font-size", JVal.str "3") :: fields)) =
        decodeLine (.obj (("font-size", JVal.num 3) :: fields)))
    ∧ (∀ fields, decodeText (.obj (("font-size", JVal.str "3") :: fields)) =
        decodeText (.obj (("font-size", JVal.num 3) :: fields)))
    ∧ (∀ (s : String) (n : Int) (fields : List (String × JVal)), parseGoInt64 s = some n →
        decodeLine (.obj (("font-size", JVal.str s) :: fields)) =
        decodeLine (.obj (("font-size", JVal.num (n : ℚ)) :: fields)))
    ∧ (∀ q : ℚ, goFontSize (some (JVal.num q)) = .ok (ratTruncToInt q))
    ∧ (∀ s : String, parseGoInt64 s = none →
        decodeLine (.obj [("type", JVal.str "line"), ("font-size", JVal.str s)]) =
          .error ("invalid font-size: " ++ s)) := by
  have h3 : goFontSize (some (JVal.str "3")) = .ok 3 := rfl
  have h3n : goFontSize (some (JVal.num 3)) = .ok 3 := rfl
  refine ⟨?_, ?_, ?_, ?_, ?_⟩
  · intro fields
    cases hb : jlookup fields "font-size" <;>
      simp [decodeLine, getString, getAlignmentField, goUnderline, jlookup, hb,
        jlookup_cons_ne, h3, h3n]
  · intro fields
    cases hb : jlookup fields "font-size" <;>
      simp [decodeText, getString, getAlignmentField, goUnderline, jlookup, hb,
        jlookup_cons_ne, h3, h3n]
  · intro s n fields hp
    have hs : goFontSize (some (JVal.str s)) = .ok n := by simp [goFontSize, hp]
    have hn : goFontSize (some (JVal.num (n : ℚ))) = .ok n := by
      simp [goFontSize, ratTruncToInt_intCast]
    cases hb : jlookup fields "font-size" <;>
      simp [decodeLine, getString, getAlignmentField, goUnderline, jlookup, hb,
        jlookup_cons_ne, hs, hn]
  · intro q
    rfl
  · intro s hp
    simp [decodeLine, getString, getAlignmentField, goFontSize, goUnderline, jlookup, hp,
      Except.bind]

theorem c5_fontsize_witness :
    parseGoInt64 "42" = some 42 ∧
    decodeLine (.obj (("font-size", JVal.str "42") :: [])) =
      decodeLine (.obj (("font-size", JVal.num ((42 : Int) : ℚ)) :: [])) ∧
    parseGoInt64 "abc" = none ∧
    decodeLine (.obj [("type", JVal.str "line"), ("font-size", JVal.str "abc")]) =
      .error ("invalid font-size: " ++ "abc") := by
  exact ⟨rfl, c5_fontsize_coercion.2.2.1 "42" 42 [] rfl, rfl,
    c5_fontsize_coercion.2.2.2.2 "abc" rfl⟩


/-- Claim C6: an underline string "true" decodes to true, any other
string (including "banana" and "false") decodes to false, a native
boolean passes through, and no string value of underline can cause a
decode error. -/
theorem c6_underline_coercion :
    decodeLine (.obj [("type", JVal.str "line"), ("underline", JVal.str "true")]) =
      .ok ⟨"line", "", 0, "", "", true⟩
    ∧ decodeText (.obj [("type", JVal.str "text"), ("underline", JVal.str "banana")]) =
      .ok ⟨"text", "", 0, "", "", false⟩
    ∧ decodeLine (.obj [("type", JVal.str "line"), ("underline", JVal.str "false")]) =
      .ok ⟨"line", "", 0, "", "", false⟩
    ∧ (∀ s : String, s ≠ "true" → goUnderline (some (JVal.str s)) = false)
    ∧ (∀ b : Bool, goUnderline (some (JVal.bool b)) = b)
    ∧ (∀ (s : String) (fields : List (String × JVal)) (l : Line),
        decodeLine (.obj fields) = .ok l →
        ∃ m : Line, decodeLine (.obj (("underline", JVal.str s) :: fields)) = .ok m) := by
  refine ⟨rfl, rfl, rfl, ?_, ?_, ?_⟩
  · intro s h
    simp [goUnderline, h]
  · intro b
    rfl
  · intro s fields l h
    simp only [decodeLine] at h
    rw [exceptBind_ok_iff] at h
    obtain ⟨ty, hty, h⟩ := h
    rw [exceptBind_ok_iff] at h
    obtain ⟨content, hc, h⟩ := h
    rw [exceptBind_ok_iff] at h
    obtain ⟨al, hal, h⟩ := h
    rw [exceptBind_ok_iff] at h
    obtain ⟨font, hf, h⟩ := h
    rw [exceptBind_ok_iff] at h
    obtain ⟨fs, hfs, h⟩ := h
    refine ⟨⟨ty, content, fs, font, al,
      goUnderline (jlookup (("underline", JVal.str s) :: fields) "underline")⟩, ?_⟩
    simp only [decodeLine,
      getString_cons "underline" "type" (JVal.str s) fields (by decide),
      getString_cons "underline" "content" (JVal.str s) fields (by decide),
      getString_cons "underline" "font" (JVal.str s) fields (by decide),
      getAlignmentField_cons "underline" (JVal.str s) fields (by decide),
      jlookup_cons_ne "underline" "font-size" (JVal.str s) fields (by decide),
      hty, hc, hal, hf, hfs, Except.bind]

theorem c6_underline_witness :
    goUnderline (some (JVal.str "banana")) = false ∧
    goUnderline (some (JVal.bool true)) = true ∧
    (∃ m : Line, decodeLine (.obj (("underline", JVal.str "whatever") ::
      [("type", JVal.str "line")])) = .ok m) := by
  refine ⟨c6_underline_coercion.2.2.2.1 "banana" (by decide),
    c6_underline_coercion.2.2.2.2.1 true,
    c6_underline_coercion.2.2.2.2.2 "whatever" [("type", JVal.str "line")]
      ⟨"line", "", 0, "", "", false⟩ rfl⟩

/-- Claim C10: an absent font-size or one holding a JSON value that is
neither string nor number, and an absent underline or one that is
neither string nor boolean, decode without error to the zero values
0 and false. -/
theorem c10_zero_value_defaulting :
    goFontSize none = .ok 0 ∧
    goFontSize (some JVal.null) = .ok 0 ∧
    (∀ b : Bool, goFontSize (some (JVal.bool b)) = .ok 0) ∧
    (∀ xs : List JVal, goFontSize (some (JVal.arr xs)) = .ok 0) ∧
    goUnderline none = false ∧
    goUnderline (some JVal.null) = false ∧
    (∀ q : ℚ, goUnderline (some (JVal.num q)) = false) ∧
    (∀ xs : List JVal, goUnderline (some (JVal.arr xs)) = false) ∧
    decodeLine (.obj [("type", JVal.str "line"), ("font-size", JVal.null),
      ("underline", JVal.num 3)]) = .ok ⟨"line", "", 0, "", "", false⟩ ∧
    decodeText (.obj [("type", JVal.str "text"), ("font-size", JVal.bool true),
      ("underline", JVal.arr [])]) = .ok ⟨"text", "", 0, "", "", false⟩ ∧
    decodeLine (.obj [("type", JVal.str "line")]) = .ok ⟨"line", "", 0, "", "", false⟩ := by
  refine ⟨rfl, rfl, ?_, ?_, rfl, rfl, ?_, ?_, rfl, rfl, rfl⟩
  · intro b; rfl
  · intro xs; rfl
  · intro q; rfl
  · intro xs; rfl
